import Mathlib

/-!
# A shallow embedding of `src/main.rs` (the `prompt-changer` tool)

The program reads, for four iterations, a "name" line and a "color" line from
standard input (each trimmed of leading and trailing whitespace), accumulates
`color ++ name ++ " "`, appends the literal `\$`, validates the result against
the pattern `^[^\x00-\x1F\x7F]*$`, and appends one configuration line to the
selected shell's startup file in append mode.

Standard input is modelled as a queue of `read_line` outcomes; the file system
as the two candidate target files (present with their lines, or absent) plus
whether the home directory resolves.  `main` is a pure function from the shell
selection, the input queue and the file-system state to the observable outcome:
exit status, final file-system state, the unread remainder of standard input,
and the prompt string handed to the validator (if that point was reached).
-/

namespace PromptChanger

/-- The error type of the source (`struct CliError(String)`); also used for the
boxed I/O errors, carrying their message. -/
structure CliError where
  msg : String
deriving DecidableEq

/-- Unicode scalar values with the `White_Space` property, as recognised by
Rust's `char::is_whitespace`; `str::trim` strips exactly these from both ends. -/
def rustIsWhitespace (c : Char) : Bool :=
  (0x09 ≤ c.val && c.val ≤ 0x0D) || c.val == 0x20 || c.val == 0x85 || c.val == 0xA0 ||
    c.val == 0x1680 || (0x2000 ≤ c.val && c.val ≤ 0x200A) || c.val == 0x2028 ||
    c.val == 0x2029 || c.val == 0x202F || c.val == 0x205F || c.val == 0x3000

/-- Rust's `str::trim`: drop leading and trailing whitespace characters. -/
def rustTrim (s : String) : String :=
  ⟨((s.data.dropWhile rustIsWhitespace).reverse.dropWhile rustIsWhitespace).reverse⟩

/-- One `read_line` outcome: the line's content (without its newline), or an
I/O error message. -/
abbrev ReadOutcome := Except String String

/-- Standard input as the queue of outcomes of successive `read_line` calls.
An exhausted queue behaves as end-of-file, where `read_line` succeeds and
leaves the buffer empty. -/
abbrev StdinQueue := List ReadOutcome

instance : DecidableEq ReadOutcome := fun x y =>
  match x, y with
  | .ok a, .ok b => decidable_of_iff (a = b) (by simp)
  | .ok _, .error _ => isFalse (by simp)
  | .error _, .ok _ => isFalse (by simp)
  | .error a, .error b => decidable_of_iff (a = b) (by simp)

/-- One `read_line` call against the input queue. -/
def readLine : StdinQueue → ReadOutcome × StdinQueue
  | [] => (.ok "", [])
  | r :: rest => (r, rest)

/-- `part_input_name`: print the i-th name prompt, read one line, trim it.
The printed text does not affect the observable state modelled here. -/
def part_input_name (i : Int) (stdin : StdinQueue) : ReadOutcome × StdinQueue :=
  let (r, rest) := readLine stdin
  (r.map rustTrim, rest)

/-- `part_input_color`: print the i-th color prompt, read one line, trim it. -/
def part_input_color (i : Int) (stdin : StdinQueue) : ReadOutcome × StdinQueue :=
  let (r, rest) := readLine stdin
  (r.map rustTrim, rest)

/-- Whether a character lies in the class `[^\x00-\x1F\x7F]` of the validation
pattern (true when it is NOT an ASCII control character or DEL). -/
def promptCharOk (c : Char) : Bool := !(c.val ≤ 0x1F || c.val == 0x7F)

/-- Basic regular expressions over characters, enough to write the validation
pattern structurally. -/
inductive Regex where
  | eps
  | cls (p : Char → Bool)
  | seq (a b : Regex)
  | alt (a b : Regex)
  | star (a : Regex)

/-- The language of a regular expression.  A whole-string match, i.e. the
pattern anchored with `^` and `$`. -/
inductive Regex.Matches : Regex → List Char → Prop where
  | eps : Regex.Matches .eps []
  | cls {p : Char → Bool} {c : Char} : p c = true → Regex.Matches (.cls p) [c]
  | seq {a b : Regex} {s t : List Char} :
      Regex.Matches a s → Regex.Matches b t → Regex.Matches (.seq a b) (s ++ t)
  | altL {a b : Regex} {s : List Char} : Regex.Matches a s → Regex.Matches (.alt a b) s
  | altR {a b : Regex} {s : List Char} : Regex.Matches b s → Regex.Matches (.alt a b) s
  | starNil {a : Regex} : Regex.Matches (.star a) []
  | starCons {a : Regex} {s t : List Char} :
      Regex.Matches a s → Regex.Matches (.star a) t → Regex.Matches (.star a) (s ++ t)

/-- The pattern `^[^\x00-\x1F\x7F]*$` compiled by `validate_prompt`; the
anchors are reflected by `Regex.Matches` consuming the whole string. -/
def promptPattern : Regex := .star (.cls promptCharOk)

/-- `Regex::is_match` of the anchored pattern on a string: every character of
the string lies in the (negated) class. -/
def promptPatternIsMatch (s : String) : Bool := s.data.all promptCharOk

/-- `validate_prompt`: reject iff the assembled prompt fails to match the
pattern `^[^\x00-\x1F\x7F]*$` (compiling the fixed pattern never fails). -/
def validate_prompt (prompt : String) : Except CliError Unit :=
  if !(promptPatternIsMatch prompt) then
    .error ⟨"The prompt contains invalid characters."⟩
  else
    .ok ()

/-- The file-system state the program can observe: the two candidate target
files (`none` means the file does not exist) and whether `home_dir()`
resolves.  A present file is its list of lines. -/
structure FS where
  bashrc : Option (List String)
  fishConfig : Option (List String)
  homeAvailable : Bool
deriving DecidableEq

/-- `update_bash_prompt`: resolve the home directory, open `<home>/.bashrc` in
append mode (failing when the file is absent — append does not create), and
write the single line `PS1='<new_prompt>'`. -/
def update_bash_prompt (new_prompt : String) (fs : FS) : Except CliError FS :=
  if fs.homeAvailable then
    match fs.bashrc with
    | none => .error ⟨"No such file or directory (os error 2)"⟩
    | some lines =>
        .ok { fs with bashrc := some (lines ++ ["PS1='" ++ new_prompt ++ "'"]) }
  else
    .error ⟨"Failed to get home directory"⟩

/-- `update_fish_prompt`: as for bash, on `<home>/.config/fish/config.fish`,
writing `set -gx fish_prompt '<new_prompt>'`. -/
def update_fish_prompt (new_prompt : String) (fs : FS) : Except CliError FS :=
  if fs.homeAvailable then
    match fs.fishConfig with
    | none => .error ⟨"No such file or directory (os error 2)"⟩
    | some lines =>
        .ok { fs with fishConfig := some (lines ++ ["set -gx fish_prompt '" ++ new_prompt ++ "'"]) }
  else
    .error ⟨"Failed to get home directory"⟩

/-- The `--shell` selection; clap restricts it to these two values before
`main`'s body runs. -/
inductive Shell where
  | bash
  | fish
deriving DecidableEq

/-- The `for number in 1..5` loop of `main`: each iteration reads a name and a
color (each trimmed), and extends the accumulator with
`acc ++ color ++ name ++ " "`.  A read error aborts the loop at once; the
second component is the standard input not yet consumed. -/
def collectLoop : Nat → Int → String → StdinQueue → ReadOutcome × StdinQueue
  | 0, _, acc, stdin => (.ok acc, stdin)
  | n + 1, number, acc, stdin =>
    match part_input_name number stdin with
    | (.error e, rest) => (.error e, rest)
    | (.ok name, rest) =>
      match part_input_color number rest with
      | (.error e, rest') => (.error e, rest')
      | (.ok color, rest') => collectLoop n (number + 1) (acc ++ color ++ name ++ " ") rest'

/-- The observable outcome of one run of `main`: the process exit status, the
final file-system state, the part of standard input never read, and the prompt
string handed to `validate_prompt` (`none` when input collection aborted
before assembly completed). -/
structure RunResult where
  exitCode : Nat
  fs : FS
  stdinRest : StdinQueue
  validatedPrompt : Option String
deriving DecidableEq

/-- `main` after argument parsing: collect the four (name, color) pairs,
append the literal `\$`, validate, then dispatch on the shell and append the
configuration line.  Every error path exits with status 1 and leaves the file
system unchanged. -/
def main (shell : Shell) (stdin : StdinQueue) (fs : FS) : RunResult :=
  let res := collectLoop 4 1 "" stdin
  match res.1 with
  | .error _ => ⟨1, fs, res.2, none⟩
  | .ok acc =>
    let new_prompt := acc ++ "\\$"
    match validate_prompt new_prompt with
    | .error _ => ⟨1, fs, res.2, some new_prompt⟩
    | .ok _ =>
      match shell with
      | .bash =>
        match update_bash_prompt new_prompt fs with
        | .error _ => ⟨1, fs, res.2, some new_prompt⟩
        | .ok fs' => ⟨0, fs', res.2, some new_prompt⟩
      | .fish =>
        match update_fish_prompt new_prompt fs with
        | .error _ => ⟨1, fs, res.2, some new_prompt⟩
        | .ok fs' => ⟨0, fs', res.2, some new_prompt⟩

@[simp]
lemma string_data_nil : ("" : String).data = [] := rfl

/-- The prompt handed to the validator is the collected accumulator with the
literal `\$` appended, whichever shell was selected and whatever the writer
stage then does. -/
lemma main_validatedPrompt (shell : Shell) (stdin : StdinQueue) (fs : FS) :
    (main shell stdin fs).validatedPrompt
      = ((collectLoop 4 1 "" stdin).1.map (· ++ "\\$")).toOption := by
  cases h : (collectLoop 4 1 "" stdin).1 with
  | error e => simp [main, h, Except.map, Except.toOption]
  | ok acc =>
    cases hv : validate_prompt (acc ++ "\\$") with
    | error e => simp [main, h, hv, Except.map, Except.toOption]
    | ok u =>
      cases shell with
      | bash =>
        cases hub : update_bash_prompt (acc ++ "\\$") fs with
        | error e => simp [main, h, hv, hub, Except.map, Except.toOption]
        | ok fs' => simp [main, h, hv, hub, Except.map, Except.toOption]
      | fish =>
        cases huf : update_fish_prompt (acc ++ "\\$") fs with
        | error e => simp [main, h, hv, huf, Except.map, Except.toOption]
        | ok fs' => simp [main, h, hv, huf, Except.map, Except.toOption]

/-- Eight successful reads drive the loop to completion, producing the
accumulator exactly as the loop body builds it. -/
lemma collectLoop_eight (n1 c1 n2 c2 n3 c3 n4 c4 : String) (rest : StdinQueue) :
    collectLoop 4 1 ""
        ([.ok n1, .ok c1, .ok n2, .ok c2, .ok n3, .ok c3, .ok n4, .ok c4] ++ rest)
      = (.ok ("" ++ rustTrim c1 ++ rustTrim n1 ++ " " ++ rustTrim c2 ++ rustTrim n2 ++ " "
          ++ rustTrim c3 ++ rustTrim n3 ++ " " ++ rustTrim c4 ++ rustTrim n4 ++ " "), rest) := rfl

/-- C1: for every sequence of four (name, color) pairs read from standard
input, the assembled prompt equals, in iteration order,
`trim(color_i) ++ trim(name_i) ++ " "` for i = 1..4, followed by the literal
two-character sequence `\$`. -/
theorem main_assembles_trimmed_fragments
    (n1 c1 n2 c2 n3 c3 n4 c4 : String) (shell : Shell) (fs : FS) (rest : StdinQueue) :
    (main shell ([.ok n1, .ok c1, .ok n2, .ok c2, .ok n3, .ok c3, .ok n4, .ok c4] ++ rest)
        fs).validatedPrompt
      = some ((rustTrim c1 ++ rustTrim n1 ++ " ") ++ (rustTrim c2 ++ rustTrim n2 ++ " ")
          ++ (rustTrim c3 ++ rustTrim n3 ++ " ") ++ (rustTrim c4 ++ rustTrim n4 ++ " ")
          ++ "\\$") := by
  rw [main_validatedPrompt, collectLoop_eight]
  simp only [Except.map, Except.toOption, Option.some.injEq]
  apply String.ext
  simp [String.data_append, List.append_assoc]

/-- C8: for every fixed sequence of standard-input outcomes, the assembled
prompt handed to the validator is identical under `--shell bash` and
`--shell fish`. -/
theorem shell_flag_noninterference (stdin : StdinQueue) (fs : FS) :
    (main .bash stdin fs).validatedPrompt = (main .fish stdin fs).validatedPrompt := by
  rw [main_validatedPrompt, main_validatedPrompt]

/-- C9: eight empty input lines are accepted: every fragment trims to the
empty string, validation succeeds, and the run appends `PS1='    \$'` (four
spaces then the marker) to the bash configuration file, exiting with 0. -/
theorem empty_lines_accepted (bl fl : List String) :
    main .bash (List.replicate 8 (.ok "")) ⟨some bl, some fl, true⟩
      = ⟨0, ⟨some (bl ++ ["PS1='    \\$'"]), some fl, true⟩, [], some "    \\$"⟩ := rfl

/-- Completeness of the scan for the star-of-class pattern: a string all of
whose characters lie in the class is matched. -/
lemma matches_star_cls_of_all {p : Char → Bool} (l : List Char) (h : ∀ c ∈ l, p c = true) :
    Regex.Matches (.star (.cls p)) l := by
  induction l with
  | nil => exact .starNil
  | cons c cs ih =>
    have hc : Regex.Matches (.cls p) [c] := .cls (h c (by simp))
    have ht : Regex.Matches (.star (.cls p)) cs := ih fun d hd => h d (by simp [hd])
    exact (Regex.Matches.starCons hc ht : Regex.Matches _ ([c] ++ cs))

/-- Soundness of the scan for the star-of-class pattern: a matched string has
all of its characters in the class. -/
lemma all_of_matches_star_cls {q : Regex} {l : List Char} (h : Regex.Matches q l) :
    ∀ p : Char → Bool, q = .star (.cls p) → ∀ c ∈ l, p c = true := by
  induction h with
  | eps => exact fun p hq => Regex.noConfusion hq
  | cls hp => exact fun p hq => Regex.noConfusion hq
  | seq h1 h2 ih1 ih2 => exact fun p hq => Regex.noConfusion hq
  | altL h1 ih1 => exact fun p hq => Regex.noConfusion hq
  | altR h1 ih1 => exact fun p hq => Regex.noConfusion hq
  | starNil => intro p hq c hc; exact absurd hc (List.not_mem_nil c)
  | starCons h1 h2 ih1 ih2 =>
    intro p hq c hc
    injection hq with ha
    subst ha
    cases h1 with
    | cls hp =>
      rcases List.mem_append.mp hc with hcs | hct
      · rw [List.mem_singleton.mp hcs]; assumption
      · exact ih2 p rfl c hct

/-- The anchored star-of-class pattern matches exactly the strings whose
characters all lie in the class. -/
lemma matches_star_cls_iff {p : Char → Bool} (l : List Char) :
    Regex.Matches (.star (.cls p)) l ↔ ∀ c ∈ l, p c = true :=
  ⟨fun h => all_of_matches_star_cls h p rfl, matches_star_cls_of_all l⟩

/-- `validate_prompt` succeeds exactly when the scan accepts. -/
lemma validate_prompt_ok_iff_scan (s : String) :
    validate_prompt s = .ok () ↔ promptPatternIsMatch s = true := by
  unfold validate_prompt
  cases h : promptPatternIsMatch s <;> simp

/-- C2: `validate_prompt` returns `Ok` iff its argument contains no character
with code point in 0x00–0x1F and none equal to 0x7F; this agrees with the
language of the anchored pattern `^[^\x00-\x1F\x7F]*$`, and on failure the
returned error is the fixed validation error. -/
theorem validate_prompt_ok_iff_no_ctrl (p : String) :
    (validate_prompt p = .ok () ↔ ∀ c ∈ p.data, ¬(c.val ≤ 0x1F) ∧ c.val ≠ 0x7F) ∧
    (validate_prompt p = .ok () ↔ Regex.Matches promptPattern p.data) ∧
    (validate_prompt p = .ok () ∨
      validate_prompt p = .error ⟨"The prompt contains invalid characters."⟩) := by
  refine ⟨?_, ?_, ?_⟩
  · rw [validate_prompt_ok_iff_scan]
    unfold promptPatternIsMatch
    rw [List.all_eq_true]
    constructor
    · intro h c hc
      simpa [promptCharOk] using h c hc
    · intro h c hc
      simpa [promptCharOk] using h c hc
  · rw [validate_prompt_ok_iff_scan]
    unfold promptPattern promptPatternIsMatch
    rw [List.all_eq_true, matches_star_cls_iff]
  · unfold validate_prompt
    cases promptPatternIsMatch p <;> simp

/-- A read error during collection makes `main` exit 1, leave the file system
unchanged, read nothing further, and never reach the validator. -/
lemma main_collect_error {stdin : StdinQueue} {e : String} {rest : StdinQueue}
    (h : collectLoop 4 1 "" stdin = (.error e, rest)) (shell : Shell) (fs : FS) :
    main shell stdin fs = ⟨1, fs, rest, none⟩ := by
  simp [main, h]

/-- A validation failure makes `main` exit 1 and leave the file system
unchanged, the writer stage never running. -/
lemma main_validate_error {stdin : StdinQueue} {acc : String} {rest : StdinQueue} {err : CliError}
    (hc : collectLoop 4 1 "" stdin = (.ok acc, rest))
    (hv : validate_prompt (acc ++ "\\$") = .error err) (shell : Shell) (fs : FS) :
    main shell stdin fs = ⟨1, fs, rest, some (acc ++ "\\$")⟩ := by
  simp [main, hc, hv]

/-- If the queue holds only successful reads up to an error placed before the
loop's 2n reads are exhausted, the loop stops at the error, consuming nothing
beyond it. -/
lemma collectLoop_error_at (e : String) (post : StdinQueue) :
    ∀ (n : Nat) (i : Int) (acc : String) (pre : StdinQueue),
      (∀ r ∈ pre, ∃ s, r = Except.ok s) → pre.length < 2 * n →
      collectLoop n i acc (pre ++ .error e :: post) = (.error e, post) := by
  intro n
  induction n with
  | zero =>
    intro i acc pre _ hlen
    exact absurd hlen (by omega)
  | succ n ih =>
    intro i acc pre hpre hlen
    cases pre with
    | nil => rfl
    | cons r pre' =>
      obtain ⟨s, rfl⟩ := hpre r (by simp)
      cases pre' with
      | nil => rfl
      | cons r2 pre'' =>
        obtain ⟨s2, rfl⟩ := hpre r2 (by simp)
        have hrec := ih (i + 1) (acc ++ rustTrim s2 ++ rustTrim s ++ " ") pre''
          (fun r hr => hpre r (by simp [hr])) (by simp at hlen ⊢; omega)
        exact hrec

/-- C7: an error on any `read_line` during fragment collection aborts the
whole process with exit status 1 before any further input is read and before
any file is touched; the validator is never reached. -/
theorem read_error_aborts (pre : StdinQueue) (e : String) (post : StdinQueue)
    (shell : Shell) (fs : FS)
    (hpre : ∀ r ∈ pre, ∃ s, r = Except.ok s) (hlen : pre.length < 8) :
    main shell (pre ++ .error e :: post) fs = ⟨1, fs, post, none⟩ :=
  main_collect_error (collectLoop_error_at e post 4 1 "" pre hpre (by omega)) shell fs

/-- Witness for C7: the second read fails, the run exits 1, the file system is
untouched and the third queued line is never read. -/
theorem read_error_aborts_witness :
    main .bash ([.ok "a"] ++ .error "broken pipe" :: [.ok "x"]) ⟨some [], some [], true⟩
      = ⟨1, ⟨some [], some [], true⟩, [.ok "x"], none⟩ :=
  read_error_aborts [.ok "a"] "broken pipe" [.ok "x"] .bash ⟨some [], some [], true⟩
    (by intro r hr; simp at hr; exact ⟨"a", hr⟩) (by simp)

/-- C6: whenever validation of the assembled prompt fails, the process exits
with status 1 and the file system is unchanged — validation runs strictly
before the writer stage. -/
theorem validation_failure_preserves_fs (shell : Shell) (stdin : StdinQueue) (fs : FS)
    (acc : String) (rest : StdinQueue) (err : CliError)
    (hc : collectLoop 4 1 "" stdin = (.ok acc, rest))
    (hv : validate_prompt (acc ++ "\\$") = .error err) :
    (main shell stdin fs).exitCode = 1 ∧ (main shell stdin fs).fs = fs := by
  rw [main_validate_error hc hv shell fs]
  exact ⟨rfl, rfl⟩

/-- Witness for C6: a NUL byte inside the first fragment survives trimming,
validation fails, the run exits 1 and the file system is unchanged. -/
theorem validation_failure_preserves_fs_witness :
    (main .bash (Except.ok "a\x00b" :: List.replicate 7 (.ok "")) ⟨some [], some [], true⟩).exitCode = 1 ∧
    (main .bash (Except.ok "a\x00b" :: List.replicate 7 (.ok "")) ⟨some [], some [], true⟩).fs
      = ⟨some [], some [], true⟩ :=
  validation_failure_preserves_fs .bash (Except.ok "a\x00b" :: List.replicate 7 (.ok ""))
    ⟨some [], some [], true⟩ "a\x00b    " [] ⟨"The prompt contains invalid characters."⟩
    rfl rfl

/-- Inversion of a successful bash write: the home directory resolved, the
file existed, and exactly the one line `PS1='<prompt>'` was appended. -/
lemma update_bash_prompt_ok {np : String} {fs fs' : FS}
    (h : update_bash_prompt np fs = .ok fs') :
    ∃ old, fs.bashrc = some old ∧
      fs' = { fs with bashrc := some (old ++ ["PS1='" ++ np ++ "'"]) } := by
  unfold update_bash_prompt at h
  cases hh : fs.homeAvailable with
  | false => rw [hh] at h; simp at h
  | true =>
    rw [hh] at h
    simp only [if_true] at h
    cases hb : fs.bashrc with
    | none => rw [hb] at h; simp at h
    | some old =>
      rw [hb] at h
      simp only [Except.ok.injEq] at h
      exact ⟨old, rfl, h.symm⟩

/-- Inversion of a successful fish write: the home directory resolved, the
file existed, and exactly the one line `set -gx fish_prompt '<prompt>'` was
appended. -/
lemma update_fish_prompt_ok {np : String} {fs fs' : FS}
    (h : update_fish_prompt np fs = .ok fs') :
    ∃ old, fs.fishConfig = some old ∧
      fs' = { fs with fishConfig := some (old ++ ["set -gx fish_prompt '" ++ np ++ "'"]) } := by
  unfold update_fish_prompt at h
  cases hh : fs.homeAvailable with
  | false => rw [hh] at h; simp at h
  | true =>
    rw [hh] at h
    simp only [if_true] at h
    cases hb : fs.fishConfig with
    | none => rw [hb] at h; simp at h
    | some old =>
      rw [hb] at h
      simp only [Except.ok.injEq] at h
      exact ⟨old, rfl, h.symm⟩

/-- C4: a successful run appends exactly one line to the selected shell's
configuration file — `PS1='<prompt>'` for bash, `set -gx fish_prompt
'<prompt>'` for fish — with the assembled prompt inserted verbatim, and the
other shell's file untouched. -/
theorem success_appends_exactly_one_line (stdin : StdinQueue) (fs : FS) (p : String) :
    ((main .bash stdin fs).exitCode = 0 → (main .bash stdin fs).validatedPrompt = some p →
      ∃ old, fs.bashrc = some old ∧
        (main .bash stdin fs).fs = { fs with bashrc := some (old ++ ["PS1='" ++ p ++ "'"]) })
    ∧ ((main .fish stdin fs).exitCode = 0 → (main .fish stdin fs).validatedPrompt = some p →
      ∃ old, fs.fishConfig = some old ∧
        (main .fish stdin fs).fs
          = { fs with fishConfig := some (old ++ ["set -gx fish_prompt '" ++ p ++ "'"]) }) := by
  constructor
  · intro h0 hp
    cases h : collectLoop 4 1 "" stdin with
    | mk r rest =>
      cases r with
      | error e => rw [main_collect_error h .bash fs] at h0; simp at h0
      | ok acc =>
        cases hv : validate_prompt (acc ++ "\\$") with
        | error err => rw [main_validate_error h hv .bash fs] at h0; simp at h0
        | ok u =>
          cases hub : update_bash_prompt (acc ++ "\\$") fs with
          | error err =>
            have hm : main .bash stdin fs = ⟨1, fs, rest, some (acc ++ "\\$")⟩ := by
              simp [main, h, hv, hub]
            rw [hm] at h0; simp at h0
          | ok fs' =>
            have hm : main .bash stdin fs = ⟨0, fs', rest, some (acc ++ "\\$")⟩ := by
              simp [main, h, hv, hub]
            rw [hm] at hp ⊢
            simp only [Option.some.injEq] at hp
            obtain ⟨old, hold, rfl⟩ := update_bash_prompt_ok hub
            exact ⟨old, hold, by rw [hp]⟩
  · intro h0 hp
    cases h : collectLoop 4 1 "" stdin with
    | mk r rest =>
      cases r with
      | error e => rw [main_collect_error h .fish fs] at h0; simp at h0
      | ok acc =>
        cases hv : validate_prompt (acc ++ "\\$") with
        | error err => rw [main_validate_error h hv .fish fs] at h0; simp at h0
        | ok u =>
          cases huf : update_fish_prompt (acc ++ "\\$") fs with
          | error err =>
            have hm : main .fish stdin fs = ⟨1, fs, rest, some (acc ++ "\\$")⟩ := by
              simp [main, h, hv, huf]
            rw [hm] at h0; simp at h0
          | ok fs' =>
            have hm : main .fish stdin fs = ⟨0, fs', rest, some (acc ++ "\\$")⟩ := by
              simp [main, h, hv, huf]
            rw [hm] at hp ⊢
            simp only [Option.some.injEq] at hp
            obtain ⟨old, hold, rfl⟩ := update_fish_prompt_ok huf
            exact ⟨old, hold, by rw [hp]⟩

/-- Witness for C4 (bash side): on eight empty lines against a present, empty
`.bashrc`, the appended file is exactly the one line `PS1='    \$'`. -/
theorem success_appends_exactly_one_line_witness :
    ∃ old, (FS.mk (some []) (some []) true).bashrc = some old ∧
      (main .bash (List.replicate 8 (.ok "")) ⟨some [], some [], true⟩).fs
        = { FS.mk (some []) (some []) true with bashrc := some (old ++ ["PS1='    \\$'"]) } :=
  (success_appends_exactly_one_line (List.replicate 8 (.ok ""))
      ⟨some [], some [], true⟩ "    \\$").1 (by decide) (by decide)

/-- C5: if the selected shell's configuration file does not exist, the run
exits with status 1 and the file system is unchanged — in particular the
append-mode open creates no file. -/
theorem missing_config_file_fails (stdin : StdinQueue) (fs : FS) :
    (fs.bashrc = none →
      (main .bash stdin fs).exitCode = 1 ∧ (main .bash stdin fs).fs = fs)
    ∧ (fs.fishConfig = none →
      (main .fish stdin fs).exitCode = 1 ∧ (main .fish stdin fs).fs = fs) := by
  constructor
  · intro hnone
    cases h : collectLoop 4 1 "" stdin with
    | mk r rest =>
      cases r with
      | error e => rw [main_collect_error h .bash fs]; exact ⟨rfl, rfl⟩
      | ok acc =>
        cases hv : validate_prompt (acc ++ "\\$") with
        | error err => rw [main_validate_error h hv .bash fs]; exact ⟨rfl, rfl⟩
        | ok u =>
          cases hub : update_bash_prompt (acc ++ "\\$") fs with
          | error err =>
            have hm : main .bash stdin fs = ⟨1, fs, rest, some (acc ++ "\\$")⟩ := by
              simp [main, h, hv, hub]
            rw [hm]; exact ⟨rfl, rfl⟩
          | ok fs' =>
            obtain ⟨old, hold, _⟩ := update_bash_prompt_ok hub
            rw [hnone] at hold
            simp at hold
  · intro hnone
    cases h : collectLoop 4 1 "" stdin with
    | mk r rest =>
      cases r with
      | error e => rw [main_collect_error h .fish fs]; exact ⟨rfl, rfl⟩
      | ok acc =>
        cases hv : validate_prompt (acc ++ "\\$") with
        | error err => rw [main_validate_error h hv .fish fs]; exact ⟨rfl, rfl⟩
        | ok u =>
          cases huf : update_fish_prompt (acc ++ "\\$") fs with
          | error err =>
            have hm : main .fish stdin fs = ⟨1, fs, rest, some (acc ++ "\\$")⟩ := by
              simp [main, h, hv, huf]
            rw [hm]; exact ⟨rfl, rfl⟩
          | ok fs' =>
            obtain ⟨old, hold, _⟩ := update_fish_prompt_ok huf
            rw [hnone] at hold
            simp at hold

/-- Witness for C5: with no `.bashrc` present, the run on eight empty lines
exits 1 and creates nothing. -/
theorem missing_config_file_fails_witness :
    (main .bash (List.replicate 8 (.ok "")) ⟨none, some [], true⟩).exitCode = 1 ∧
    (main .bash (List.replicate 8 (.ok "")) ⟨none, some [], true⟩).fs = ⟨none, some [], true⟩ :=
  (missing_config_file_fails (List.replicate 8 (.ok "")) ⟨none, some [], true⟩).1 rfl

@[simp]
lemma rustTrim_empty : rustTrim "" = "" := rfl

@[simp]
lemma string_data_space : (" " : String).data = [' '] := rfl

@[simp]
lemma string_data_marker : ("\\$" : String).data = ['\\', '$'] := rfl

/-- Characters of one loop-body extension `a ++ b ++ d ++ " "`. -/
lemma mem_append_body {c : Char} {a b d : String} :
    c ∈ (a ++ b ++ d ++ " ").data ↔ c ∈ a.data ∨ c ∈ b.data ∨ c ∈ d.data ∨ c = ' ' := by
  simp [String.data_append, List.mem_append, or_assoc]

/-- A completed collection run is at least one character longer per remaining
iteration and, if at least one iteration ran, ends in the separator space. -/
lemma collectLoop_ok_shape : ∀ (n : Nat) (i : Int) (acc : String) (stdin : StdinQueue)
    (out : String) (rest : StdinQueue),
    collectLoop n i acc stdin = (.ok out, rest) →
    acc.length + n ≤ out.length ∧ (0 < n → ∃ t, out = t ++ " ") := by
  intro n
  induction n with
  | zero =>
    intro i acc stdin out rest h
    simp [collectLoop] at h
    obtain ⟨rfl, rfl⟩ := h
    exact ⟨by omega, fun hz => absurd hz (by omega)⟩
  | succ n ih =>
    intro i acc stdin out rest h
    have step : ∀ (color name : String) (tl : StdinQueue),
        collectLoop n (i + 1) (acc ++ color ++ name ++ " ") tl = (.ok out, rest) →
        acc.length + (n + 1) ≤ out.length ∧ (0 < n + 1 → ∃ t, out = t ++ " ") := by
      intro color name tl h'
      have hih := ih (i + 1) (acc ++ color ++ name ++ " ") tl out rest h'
      constructor
      · have hl := hih.1
        simp only [String.length_append] at hl
        have hsp : (" " : String).length = 1 := rfl
        omega
      · intro _
        rcases Nat.eq_zero_or_pos n with hn | hn
        · subst hn
          simp [collectLoop] at h'
          obtain ⟨rfl, rfl⟩ := h'
          exact ⟨acc ++ color ++ name, rfl⟩
        · exact hih.2 hn
    cases stdin with
    | nil => exact step (rustTrim "") (rustTrim "") [] h
    | cons r tl =>
      cases r with
      | error e => simp [collectLoop, part_input_name, readLine, Except.map] at h
      | ok s =>
        cases tl with
        | nil => exact step (rustTrim "") (rustTrim s) [] h
        | cons r2 tl2 =>
          cases r2 with
          | error e =>
            simp [collectLoop, part_input_name, part_input_color, readLine, Except.map] at h
          | ok s2 => exact step (rustTrim s2) (rustTrim s) tl2 h

/-- Every character of a completed collection run comes from the starting
accumulator, is a separator space, or belongs to the trimmed content of a
successfully read input line. -/
lemma collectLoop_ok_chars : ∀ (n : Nat) (i : Int) (acc : String) (stdin : StdinQueue)
    (out : String) (rest : StdinQueue),
    collectLoop n i acc stdin = (.ok out, rest) →
    ∀ c ∈ out.data,
      c ∈ acc.data ∨ c = ' ' ∨ ∃ s, Except.ok s ∈ stdin ∧ c ∈ (rustTrim s).data := by
  intro n
  induction n with
  | zero =>
    intro i acc stdin out rest h c hc
    simp [collectLoop] at h
    obtain ⟨rfl, rfl⟩ := h
    exact Or.inl hc
  | succ n ih =>
    intro i acc stdin out rest h c hc
    cases stdin with
    | nil =>
      have h' : collectLoop n (i + 1) (acc ++ rustTrim "" ++ rustTrim "" ++ " ") []
          = (.ok out, rest) := h
      rcases ih _ _ _ _ _ h' c hc with hin | hsp | ⟨s, hs, _⟩
      · rcases mem_append_body.mp hin with h1 | h2 | h3 | h4
        · exact Or.inl h1
        · simp at h2
        · simp at h3
        · exact Or.inr (Or.inl h4)
      · exact Or.inr (Or.inl hsp)
      · simp at hs
    | cons r tl =>
      cases r with
      | error e => simp [collectLoop, part_input_name, readLine, Except.map] at h
      | ok s =>
        cases tl with
        | nil =>
          have h' : collectLoop n (i + 1) (acc ++ rustTrim "" ++ rustTrim s ++ " ") []
              = (.ok out, rest) := h
          rcases ih _ _ _ _ _ h' c hc with hin | hsp | ⟨s', hs', _⟩
          · rcases mem_append_body.mp hin with h1 | h2 | h3 | h4
            · exact Or.inl h1
            · simp at h2
            · exact Or.inr (Or.inr ⟨s, by simp, h3⟩)
            · exact Or.inr (Or.inl h4)
          · exact Or.inr (Or.inl hsp)
          · simp at hs'
        | cons r2 tl2 =>
          cases r2 with
          | error e =>
            simp [collectLoop, part_input_name, part_input_color, readLine, Except.map] at h
          | ok s2 =>
            have h' : collectLoop n (i + 1) (acc ++ rustTrim s2 ++ rustTrim s ++ " ") tl2
                = (.ok out, rest) := h
            rcases ih _ _ _ _ _ h' c hc with hin | hsp | ⟨s', hs', hm'⟩
            · rcases mem_append_body.mp hin with h1 | h2 | h3 | h4
              · exact Or.inl h1
              · exact Or.inr (Or.inr ⟨s2, by simp, h2⟩)
              · exact Or.inr (Or.inr ⟨s, by simp, h3⟩)
              · exact Or.inr (Or.inl h4)
            · exact Or.inr (Or.inl hsp)
            · exact Or.inr (Or.inr ⟨s', by simp [hs'], hm'⟩)

/-- C10: whatever standard input holds, any prompt handed to the validator
ends with the three characters space, backslash, dollar, has length at least
6, and can only fail validation through characters of the trimmed input
fragments — the separators and the appended marker are never to blame. -/
theorem prompt_suffix_invariant (shell : Shell) (stdin : StdinQueue) (fs : FS) (p : String)
    (h : (main shell stdin fs).validatedPrompt = some p) :
    (∃ t, p = t ++ " \\$") ∧ 6 ≤ p.length ∧
      ((∀ s : String, Except.ok s ∈ stdin → ∀ c ∈ (rustTrim s).data, promptCharOk c = true) →
        validate_prompt p = .ok ()) := by
  rw [main_validatedPrompt] at h
  cases hc : collectLoop 4 1 "" stdin with
  | mk r rest =>
    rw [hc] at h
    cases r with
    | error e => simp [Except.map, Except.toOption] at h
    | ok acc =>
      simp only [Except.map, Except.toOption, Option.some.injEq] at h
      subst h
      obtain ⟨hlen, hsp⟩ := collectLoop_ok_shape 4 1 "" stdin acc rest hc
      refine ⟨?_, ?_, ?_⟩
      · obtain ⟨t, ht⟩ := hsp (by omega)
        refine ⟨t, ?_⟩
        rw [ht, String.append_assoc]
        rfl
      · rw [String.length_append]
        have h0 : ("" : String).length = 0 := rfl
        have h2 : ("\\$" : String).length = 2 := rfl
        omega
      · intro hclean
        rw [validate_prompt_ok_iff_scan]
        unfold promptPatternIsMatch
        rw [List.all_eq_true]
        intro c hcp
        rw [String.data_append] at hcp
        rcases List.mem_append.mp hcp with hca | hcd
        · rcases collectLoop_ok_chars 4 1 "" stdin acc rest hc c hca with h1 | h2 | ⟨s, hs, hm⟩
          · simp at h1
          · subst h2; decide
          · exact hclean s hs c hm
        · rw [string_data_marker] at hcd
          simp only [List.mem_cons, List.not_mem_nil, or_false] at hcd
          rcases hcd with h1 | h1
          · subst h1; decide
          · subst h1; decide

/-- Witness for C10 at eight empty input lines, where the validated prompt is
four spaces followed by the marker. -/
theorem prompt_suffix_invariant_witness :
    (∃ t, "    \\$" = t ++ " \\$") ∧ 6 ≤ ("    \\$" : String).length ∧
      ((∀ s : String, Except.ok s ∈ (List.replicate 8 (Except.ok "") : StdinQueue) →
          ∀ c ∈ (rustTrim s).data, promptCharOk c = true) →
        validate_prompt "    \\$" = .ok ()) :=
  prompt_suffix_invariant .bash (List.replicate 8 (.ok "")) ⟨some [], some [], true⟩
    "    \\$" rfl

/-- C3 as stated is false on the code: every one of the eight input lines is a
single tab — a byte in the range 0x00–0x1F — yet each tab is trimmed away
before assembly, validation succeeds, the run exits with status 0 and the
configuration line is written. -/
theorem ctrl_fragment_accepted_cex :
    ('\t'.val ≤ 0x1F) = true ∧ '\t' ∈ "\t".data ∧
      (main .bash (List.replicate 8 (.ok "\t")) ⟨some [], some [], true⟩).exitCode = 0 ∧
      (main .bash (List.replicate 8 (.ok "\t")) ⟨some [], some [], true⟩).fs.bashrc
        = some ["PS1='    \\$'"] :=
  ⟨by decide, by decide, rfl, rfl⟩

/-- C3 (amended): for any input fragment that still contains a character in
0x00–0x1F or 0x7F after trimming leading and trailing whitespace, the tool
rejects the assembled prompt, exits with status 1, and performs no file
write. -/
theorem trimmed_ctrl_fragment_rejected
    (l1 l2 l3 l4 l5 l6 l7 l8 : String) (shell : Shell) (fs : FS) (rest : StdinQueue)
    (h : ∃ c : Char, (c.val ≤ 0x1F ∨ c.val = 0x7F) ∧
      (c ∈ (rustTrim l1).data ∨ c ∈ (rustTrim l2).data ∨ c ∈ (rustTrim l3).data ∨
       c ∈ (rustTrim l4).data ∨ c ∈ (rustTrim l5).data ∨ c ∈ (rustTrim l6).data ∨
       c ∈ (rustTrim l7).data ∨ c ∈ (rustTrim l8).data)) :
    (main shell ([.ok l1, .ok l2, .ok l3, .ok l4, .ok l5, .ok l6, .ok l7, .ok l8] ++ rest)
        fs).exitCode = 1 ∧
    (main shell ([.ok l1, .ok l2, .ok l3, .ok l4, .ok l5, .ok l6, .ok l7, .ok l8] ++ rest)
        fs).fs = fs := by
  obtain ⟨c, hctrl, hmem⟩ := h
  have hc := collectLoop_eight l1 l2 l3 l4 l5 l6 l7 l8 rest
  set acc := "" ++ rustTrim l2 ++ rustTrim l1 ++ " " ++ rustTrim l4 ++ rustTrim l3 ++ " "
      ++ rustTrim l6 ++ rustTrim l5 ++ " " ++ rustTrim l8 ++ rustTrim l7 ++ " " with hacc
  have hmem' : c ∈ (acc ++ "\\$").data := by
    rw [hacc]
    simp only [String.data_append, List.mem_append, string_data_nil, List.not_mem_nil,
      false_or]
    tauto
  have hbad : promptCharOk c = false := by
    simp only [promptCharOk, Bool.not_eq_false', Bool.or_eq_true, decide_eq_true_eq,
      beq_iff_eq]
    exact hctrl
  have hvm : promptPatternIsMatch (acc ++ "\\$") = false := by
    rw [Bool.eq_false_iff]
    intro htrue
    unfold promptPatternIsMatch at htrue
    have hder := List.all_eq_true.mp htrue c hmem'
    rw [hbad] at hder
    exact Bool.noConfusion hder
  have hv : validate_prompt (acc ++ "\\$")
      = .error ⟨"The prompt contains invalid characters."⟩ := by
    unfold validate_prompt
    rw [hvm]
    rfl
  rw [main_validate_error hc hv shell fs]
  exact ⟨rfl, rfl⟩

/-- Witness for amended C3: the first line keeps an interior NUL after
trimming; the run exits 1 and the file system is unchanged. -/
theorem trimmed_ctrl_fragment_rejected_witness :
    (main .bash [.ok "a\x00b", .ok "", .ok "", .ok "", .ok "", .ok "", .ok "", .ok ""]
        ⟨some [], some [], true⟩).exitCode = 1 ∧
    (main .bash [.ok "a\x00b", .ok "", .ok "", .ok "", .ok "", .ok "", .ok "", .ok ""]
        ⟨some [], some [], true⟩).fs = ⟨some [], some [], true⟩ :=
  trimmed_ctrl_fragment_rejected "a\x00b" "" "" "" "" "" "" "" .bash
    ⟨some [], some [], true⟩ [] ⟨'\x00', by decide, by decide⟩

end PromptChanger
